import Mathlib

/-!
Verification of the speech-generation pipeline of `ttsKOKORO.py`.

Strings are modelled as `List Char` with ASCII semantics for the Python
character classes (`\w`, `\s`, `\b`); Python floats are modelled as `ℚ`;
the filesystem, the subprocess and other effects are modelled by explicit
environment records, and each effectful function returns a trace recording
which side effects it performed.

Every regex substitution of `clean_text_for_speech` is embedded as an
executable scanner with Python `re.sub` semantics: leftmost scan, greedy or
non-greedy quantifiers as in the corresponding pattern, resuming after the
replaced segment.  The scanners that restart after a match take an explicit
fuel argument instantiated with `length + 1`; every step consumes at least
one character, so the fuel never runs out.
-/

/-- Model of Python `\s` (ASCII): space, tab, newline, carriage return,
vertical tab, form feed. -/
def isPySpace (c : Char) : Bool :=
  c = ' ' || c = '\t' || c = '\n' || c = '\r' || c = '\x0b' || c = '\x0c'

/-- Model of Python `\w` (ASCII): letters, digits, underscore. -/
def isWordChar (c : Char) : Bool :=
  c.isAlphanum || c = '_'

/-- The punctuation kept by `clean_text_for_speech`'s character filter:
`. , ! ? ; : - ' " ( )`. -/
def isKeptPunct (c : Char) : Bool :=
  c = '.' || c = ',' || c = '!' || c = '?' || c = ';' || c = ':' ||
  c = '-' || c = '\'' || c = '"' || c = '(' || c = ')'

/-- Characters kept by `re.sub(r'[^\w\s\.,!?;:\-\'"()]', '', cleaned)`. -/
def allowedChar (c : Char) : Bool :=
  isWordChar c || isPySpace c || isKeptPunct c

/-- Model of `cleaned.replace('\n', ' ')`. -/
def nlToSpace (c : Char) : Char :=
  if c = '\n' then ' ' else c

/-- Scanner for `re.sub(r'\s+', ' ', cleaned)`: each maximal whitespace run
becomes a single space.  The flag records whether the scanner is inside a
run whose space has already been emitted. -/
def collapseAux : Bool → List Char → List Char
  | _, [] => []
  | inRun, c :: t =>
    if isPySpace c then
      if inRun then collapseAux true t else ' ' :: collapseAux true t
    else c :: collapseAux false t

/-- Model of `re.sub(r'\s+', ' ', cleaned)`. -/
def wsCollapse (s : List Char) : List Char :=
  collapseAux false s

/-- Drop leading Python whitespace. -/
def ltrim (s : List Char) : List Char :=
  s.dropWhile isPySpace

/-- Drop trailing Python whitespace. -/
def rtrim (s : List Char) : List Char :=
  (s.reverse.dropWhile isPySpace).reverse

/-- Model of Python `str.strip()`. -/
def pyStrip (s : List Char) : List Char :=
  rtrim (ltrim s)

/-- Model of lines 73-74 of `ttsKOKORO.py`:
`if cleaned and not cleaned[-1] in '.!?': cleaned += '.'`. -/
def ensureDot (s : List Char) : List Char :=
  if s ≠ [] ∧ s.getLast? ≠ some '.' ∧ s.getLast? ≠ some '!' ∧
      s.getLast? ≠ some '?' then
    s ++ ['.']
  else s

/-- The closing search of `re.sub(r'\*\*(.+?)\*\*', r'\1', text)`: given the
text after an opening `**`, find the shortest nonempty run of non-newline
characters followed by `**`; return the run and the number of characters
consumed (run plus closing delimiter). -/
def boldClose : List Char → Option (List Char × Nat)
  | [] => none
  | c :: t =>
    if c = '\n' then none
    else if t.take 2 = ['*', '*'] then some ([c], 3)
    else
      match boldClose t with
      | some (content, n) => some (c :: content, n + 1)
      | none => none

/-- Scanner for `re.sub(r'\*\*(.+?)\*\*', r'\1', text)` (bold markup). -/
def boldSubAux : Nat → List Char → List Char
  | 0, s => s
  | _ + 1, [] => []
  | fuel + 1, c :: t =>
    if c = '*' ∧ t.head? = some '*' then
      match boldClose t.tail with
      | some (content, n) => content ++ boldSubAux fuel (t.tail.drop n)
      | none => c :: boldSubAux fuel t
    else c :: boldSubAux fuel t

/-- Line 54 of `ttsKOKORO.py`: strip `**bold**` markup. -/
def boldSub (s : List Char) : List Char :=
  boldSubAux (s.length + 1) s

/-- The closing search for a single-character delimiter `d` with pattern
`d(.+?)d`: shortest nonempty non-newline run followed by `d`. -/
def delimClose (d : Char) : List Char → Option (List Char × Nat)
  | [] => none
  | c :: t =>
    if c = '\n' then none
    else if t.head? = some d then some ([c], 2)
    else
      match delimClose d t with
      | some (content, n) => some (c :: content, n + 1)
      | none => none

/-- Scanner for `re.sub(r'd(.+?)d', r'\1', text)` with a one-character
delimiter `d`; used for italic (`*`) and code (`` ` ``) markup. -/
def delimSubAux (d : Char) : Nat → List Char → List Char
  | 0, s => s
  | _ + 1, [] => []
  | fuel + 1, c :: t =>
    if c = d then
      match delimClose d t with
      | some (content, n) => content ++ delimSubAux d fuel (t.drop n)
      | none => c :: delimSubAux d fuel t
    else c :: delimSubAux d fuel t

/-- Line 55 of `ttsKOKORO.py`: strip `*italic*` markup. -/
def italicSub (s : List Char) : List Char :=
  delimSubAux '*' (s.length + 1) s

/-- Line 56 of `ttsKOKORO.py`: strip backtick code markup. -/
def codeSub (s : List Char) : List Char :=
  delimSubAux '`' (s.length + 1) s

/-- Backtracking over `\s*` for `re.sub(r'##+\s*(.+)', r'\1', text)`: try the
whitespace length `w` (greedy, counting down), then match `(.+)` greedily as
the maximal nonempty non-newline run.  Returns the captured run and the
number of characters consumed from `u`. -/
def headerTryWs (u : List Char) : Nat → Option (List Char × Nat)
  | 0 =>
    let cap := u.takeWhile (fun c => c ≠ '\n')
    if cap.isEmpty then none else some (cap, cap.length)
  | w + 1 =>
    let cap := (u.drop (w + 1)).takeWhile (fun c => c ≠ '\n')
    if cap.isEmpty then headerTryWs u w else some (cap, (w + 1) + cap.length)

/-- Backtracking over `##+` beyond the two mandatory hashes: `j` counts the
extra hashes taken (greedy, counting down).  `t` is the text after the two
mandatory hashes; returns the captured run and characters consumed from
`t`. -/
def headerTryJ (t : List Char) : Nat → Option (List Char × Nat)
  | 0 =>
    headerTryWs t ((t.takeWhile isPySpace).length)
  | j + 1 =>
    let u := t.drop (j + 1)
    match headerTryWs u ((u.takeWhile isPySpace).length) with
    | some (cap, m) => some (cap, (j + 1) + m)
    | none => headerTryJ t j

/-- Match of `##+\s*(.+)` at a position starting with two hashes; `t` is the
text after those two hashes. -/
def headerMatch (t : List Char) : Option (List Char × Nat) :=
  headerTryJ t ((t.takeWhile (fun c => c = '#')).length)

/-- Scanner for `re.sub(r'##+\s*(.+)', r'\1', text)` (markdown headers). -/
def headerSubAux : Nat → List Char → List Char
  | 0, s => s
  | _ + 1, [] => []
  | fuel + 1, c :: t =>
    if c = '#' ∧ t.head? = some '#' then
      match headerMatch t.tail with
      | some (cap, n) => cap ++ headerSubAux fuel (t.tail.drop n)
      | none => c :: headerSubAux fuel t
    else c :: headerSubAux fuel t

/-- Line 57 of `ttsKOKORO.py`: strip `##`-style markdown headers. -/
def headerSub (s : List Char) : List Char :=
  headerSubAux (s.length + 1) s

/-- The `\(.+?\)` part of the link pattern: shortest nonempty non-newline run
followed by `)`; returns the number of characters consumed. -/
def parenClose : List Char → Option Nat
  | [] => none
  | c :: t =>
    if c = '\n' then none
    else if t.head? = some ')' then some 2
    else (parenClose t).map (· + 1)

/-- Match of `(.+?)\]\(.+?\)` after an opening `[`: `acc` is the reversed
content matched so far.  Non-greedy: at each `](` with nonempty content the
parenthesised part is tried; on failure the `]` is absorbed into the
content and the scan continues.  Returns the captured link text and the
characters consumed after the `[`. -/
def linkMatchAux (acc : List Char) : List Char → Option (List Char × Nat)
  | ']' :: '(' :: u =>
    if acc.isEmpty then linkMatchAux (']' :: acc) ('(' :: u)
    else
      match parenClose u with
      | some m => some (acc.reverse, acc.length + 2 + m)
      | none => linkMatchAux (']' :: acc) ('(' :: u)
  | c :: rest =>
    if c = '\n' then none
    else linkMatchAux (c :: acc) rest
  | [] => none

/-- Scanner for `re.sub(r'\[(.+?)\]\(.+?\)', r'\1', text)` (markdown links,
keeping the link text). -/
def linkSubAux : Nat → List Char → List Char
  | 0, s => s
  | _ + 1, [] => []
  | fuel + 1, c :: t =>
    if c = '[' then
      match linkMatchAux [] t with
      | some (content, n) => content ++ linkSubAux fuel (t.drop n)
      | none => c :: linkSubAux fuel t
    else c :: linkSubAux fuel t

/-- Line 58 of `ttsKOKORO.py`: strip markdown links. -/
def linkSub (s : List Char) : List Char :=
  linkSubAux (s.length + 1) s

/-- The `\S+` tail of the URL pattern: the maximal nonempty run of
non-whitespace characters; returns its length. -/
def urlTailLen (u : List Char) : Option Nat :=
  let n := (u.takeWhile (fun c => !(isPySpace c))).length
  if n = 0 then none else some n

/-- Match of `s?://\S+` after a literal `http`; greedy on the optional `s`.
Returns the number of characters consumed. -/
def urlMatch (t : List Char) : Option Nat :=
  if t.take 4 = ['s', ':', '/', '/'] then (urlTailLen (t.drop 4)).map (· + 4)
  else if t.take 3 = [':', '/', '/'] then (urlTailLen (t.drop 3)).map (· + 3)
  else none

/-- Scanner for `re.sub(r'https?://\S+', '', text)` (URLs are removed). -/
def urlSubAux : Nat → List Char → List Char
  | 0, s => s
  | _ + 1, [] => []
  | fuel + 1, c :: t =>
    if c = 'h' ∧ t.take 3 = ['t', 't', 'p'] then
      match urlMatch (t.drop 3) with
      | some n => urlSubAux fuel (t.drop (3 + n))
      | none => c :: urlSubAux fuel t
    else c :: urlSubAux fuel t

/-- Line 59 of `ttsKOKORO.py`: remove raw URLs. -/
def urlSub (s : List Char) : List Char :=
  urlSubAux (s.length + 1) s

/-- Python `\b` before a word character: start of string or a preceding
non-word character. -/
def wordBoundary : Option Char → Bool
  | none => true
  | some c => !(isWordChar c)

/-- Scanner for `re.sub(r'\bDr\.', 'Doctor', text)`.  `prev` is the character
preceding the current position in the original text (`none` at the start);
after a match the scan resumes with `prev = '.'`, the last character of the
matched text. -/
def drSubAux : Nat → Option Char → List Char → List Char
  | 0, _, s => s
  | _ + 1, _, [] => []
  | fuel + 1, prev, c :: t =>
    if c = 'D' ∧ t.take 2 = ['r', '.'] ∧ wordBoundary prev then
      'D' :: 'o' :: 'c' :: 't' :: 'o' :: 'r' :: drSubAux fuel (some '.') (t.drop 2)
    else c :: drSubAux fuel (some c) t

/-- Line 63 of `ttsKOKORO.py`: expand `Dr.` to `Doctor` at word boundaries. -/
def drSub (prev : Option Char) (s : List Char) : List Char :=
  drSubAux (s.length + 1) prev s

/-- Lines 68-74 of `ttsKOKORO.py`: the character filter, newline replacement,
whitespace collapse, strip, and terminal-punctuation steps that follow the
regex substitutions. -/
def postClean (z : List Char) : List Char :=
  ensureDot (pyStrip (wsCollapse ((z.filter allowedChar).map nlToSpace)))

/-- Model of `clean_text_for_speech` (lines 48-76 of `ttsKOKORO.py`), the
spec's `normalize`. -/
def clean_text_for_speech (text : List Char) : List Char :=
  if text = [] then []
  else
    postClean (drSub none (urlSub (linkSub (headerSub (codeSub (italicSub
      (boldSub text)))))))

/-! ## Synthesis invoker: `generate_speech_piper` (lines 78-156) -/

/-- Environment of one `generate_speech_piper` call: the outcomes of its
filesystem probes, the subprocess, and the possible I/O exceptions.
`openRaises` models an exception raised between the temporary-file creation
and the `subprocess.run` call (for example when reopening the text file at
line 126); it is caught by the blanket `except` at line 154. -/
structure PiperEnv where
  uuidHex : List Char
  voiceExists : Bool
  piperExists : Bool
  openRaises : Bool
  returncode : Int
  outputExists : Bool
deriving DecidableEq

/-- Side effects performed by one `generate_speech_piper` call.
`tempCreated`: the transient text artifact was created (line 90);
`tempContent`: the normalized text written to it (lines 85, 92);
`unlinkAttempted`: its removal was attempted before returning (lines
100, 109, 138); `voiceChecked`: `os.path.exists` was evaluated on the voice
model path (line 97); `spawned`: the Piper subprocess was run (line 127);
`lengthScaleArg`: the `--length-scale` value passed to it (line 120);
`outputFilename`: the generated output filename (line 86). -/
structure PiperTrace where
  tempCreated : Bool
  tempContent : Option (List Char)
  unlinkAttempted : Bool
  voiceChecked : Bool
  spawned : Bool
  lengthScaleArg : Option ℚ
  outputFilename : Option (List Char)
deriving DecidableEq

/-- Result of `generate_speech_piper`: the returned URL string, or `none`
(the function returns `None` on every failure). -/
inductive PiperResult where
  | ok (audioPath : List Char)
  | err
deriving DecidableEq

/-- The output filename built at line 86:
`f"piper_speech_{uuid.uuid4().hex}.wav"`. -/
def piper_speech_filename (uuidHex : List Char) : List Char :=
  "piper_speech_".toList ++ uuidHex ++ ".wav".toList

/-- Model of `generate_speech_piper(text, voice_file, speed)` (lines 78-156
of `ttsKOKORO.py`).  The guard at line 80 tests the *raw* text
(`not text.strip()`) and the voice id; the text is normalized at line 85;
the temporary text file is created at line 90, before the voice and engine
existence checks; `length_scale = 1.0 / speed` at line 114 raises
`ZeroDivisionError` when `speed == 0`, which the blanket `except` at line
154 turns into `None` without removing the temporary file. -/
def generate_speech_piper (text voice_file : List Char) (speed : ℚ)
    (env : PiperEnv) : PiperResult × PiperTrace :=
  if pyStrip text = [] ∨ voice_file = [] then
    (.err, ⟨false, none, false, false, false, none, none⟩)
  else
    -- line 85: text = clean_text_for_speech(text); written to the temp file
    let cleaned := clean_text_for_speech text
    let fname := piper_speech_filename env.uuidHex
    -- line 90: temporary text file created
    if env.voiceExists = false then
      (.err, ⟨true, some cleaned, true, true, false, none, some fname⟩)
    else if env.piperExists = false then
      (.err, ⟨true, some cleaned, true, true, false, none, some fname⟩)
    else if speed = 0 then
      -- line 114 raises ZeroDivisionError; caught at line 154, no unlink
      (.err, ⟨true, some cleaned, false, true, false, none, some fname⟩)
    else
      let length_scale : ℚ := 1 / speed
      if env.openRaises then
        -- exception before subprocess.run; caught at line 154, no unlink
        (.err, ⟨true, some cleaned, false, true, false, none, some fname⟩)
      else
        let tr : PiperTrace :=
          ⟨true, some cleaned, true, true, true, some length_scale, some fname⟩
        if env.returncode ≠ 0 then (.err, tr)
        else if env.outputExists = false then (.err, tr)
        else (.ok ("/static/audio/".toList ++ fname), tr)

/-! ## Output store: `convert_audio_format` (lines 159-181) and the
transcoding step of the `generate_speech` route (lines 356-368) -/

/-- Model of Python `str.replace(pat, rep)` for a nonempty pattern:
left-to-right, non-overlapping, resuming after each replacement. -/
def pyReplaceAux (pat rep : List Char) : Nat → List Char → List Char
  | 0, s => s
  | _ + 1, [] => []
  | fuel + 1, c :: t =>
    if pat.isPrefixOf (c :: t) then
      rep ++ pyReplaceAux pat rep fuel ((c :: t).drop pat.length)
    else c :: pyReplaceAux pat rep fuel t

/-- Model of Python `str.replace` (for nonempty patterns). -/
def pyReplace (s pat rep : List Char) : List Char :=
  pyReplaceAux pat rep (s.length + 1) s

/-- Model of `os.path.join(a, b)` for a relative `b` (POSIX separator). -/
def joinPath (a b : List Char) : List Char :=
  a ++ '/' :: b

/-- Model of `os.path.basename` (POSIX): the part after the last `/`. -/
def pyBasename (s : List Char) : List Char :=
  (s.reverse.takeWhile (fun c => c ≠ '/')).reverse

/-- Environment of the transcoding step: whether the `ffmpeg` module was
importable (line 14), whether the ffmpeg subprocess exits successfully
(line 173), and whether `os.remove` on the original raises `OSError`
(line 363). -/
structure ConvEnv where
  ffmpegAvailable : Bool
  ffmpegSucceeds : Bool
  removeRaises : Bool
deriving DecidableEq

/-- Model of `convert_audio_format(wav_path, output_format)` (lines 159-181):
on success returns `wav_path.replace('.wav', f'.{output_format}')`, on
any failure returns `None`; the original file is never written or removed
by this function. -/
def convert_audio_format (wav_path output_format : List Char)
    (env : ConvEnv) : Option (List Char) :=
  if env.ffmpegAvailable = false then none
  else if env.ffmpegSucceeds then
    some (pyReplace wav_path ".wav".toList ('.' :: output_format))
  else none

/-- Outcome of the transcoding step of the `generate_speech` route:
the audio path returned to the client, whether `os.remove` was attempted on
the original wav file, and whether it actually removed the file. -/
structure ConvOutcome where
  audioPath : List Char
  origRemoveAttempted : Bool
  origRemoved : Bool
deriving DecidableEq

/-- Model of lines 356-368 of the `generate_speech` route: if the requested
`output_format` is not `wav`, try `convert_audio_format` on the absolute
wav path; on success remove the original (swallowing `OSError`) and serve
the converted file's basename under `/static/audio/`; on failure keep
serving the wav. -/
def generate_speech_transcode (cwd wavName output_format : List Char)
    (env : ConvEnv) : ConvOutcome :=
  let audio_path := "/static/audio/".toList ++ wavName
  if output_format = "wav".toList then ⟨audio_path, false, false⟩
  else
    match convert_audio_format (joinPath cwd ("static/audio/".toList ++ wavName))
        output_format env with
    | some p =>
      ⟨"/static/audio/".toList ++ pyBasename p, true, !env.removeRaises⟩
    | none => ⟨audio_path, false, false⟩

/-! ## Janitor: the `cleanup` route (lines 430-452) -/

/-- One directory entry as seen by the cleanup sweep: its name, modification
time, whether `os.path.isfile` holds, and whether `os.remove` succeeds on
it (deletion failures raise `OSError`, which is logged and skipped). -/
structure DirEntry where
  name : List Char
  mtime : ℚ
  isFile : Bool
  removable : Bool
deriving DecidableEq

/-- Model of the sweep loop of the `cleanup` route (lines 441-448): for every
entry that is a regular file with modification time strictly before the
cutoff, attempt removal; count only successful removals.  Returns the count
and the entries still present afterwards. -/
def cleanup_sweep (cutoff : ℚ) : List DirEntry → Nat × List DirEntry
  | [] => (0, [])
  | f :: rest =>
    let r := cleanup_sweep cutoff rest
    if f.isFile = true ∧ f.mtime < cutoff then
      if f.removable then (r.1 + 1, r.2) else (r.1, f :: r.2)
    else (r.1, f :: r.2)

/-- Model of the `cleanup` route (lines 430-452): the cutoff is
`time.time() - 3600`. -/
def cleanup (now : ℚ) (dir : List DirEntry) : Nat × List DirEntry :=
  cleanup_sweep (now - 3600) dir

/-! ## Artifact download: `download_audio` (lines 407-428) -/

/-- The audio output directory (`AUDIO_DIR`, line 32), relative to the
working directory. -/
def AUDIO_DIR : List Char := "static/audio".toList

/-- Abstract filesystem for the download route: which paths exist and which
are regular files. -/
structure DownloadFS where
  pathExists : List Char → Bool
  isFile : List Char → Bool

/-- Result of `download_audio`: 404, the file actually streamed by
`send_file`, or the 500 response produced when `send_file` raises (for
example `IsADirectoryError` on a directory path). -/
inductive DownloadResult where
  | notFound
  | served (path : List Char)
  | error500
deriving DecidableEq

/-- Model of the `download_audio` route (lines 407-428): the request filename
is reduced to its basename, joined under `AUDIO_DIR`, checked for
existence, and passed to `send_file`, which streams it when it is a
regular file and raises (caught as a 500) otherwise. -/
def download_audio (filename : List Char) (fs : DownloadFS) : DownloadResult :=
  let name := pyBasename filename
  let file_path := joinPath AUDIO_DIR name
  if fs.pathExists file_path = false then .notFound
  else if fs.isFile file_path then .served file_path
  else .error500

/-! ## Evaluation lemmas for `generate_speech_piper`, one per exit path -/

/-- Exit path of line 80: empty (stripped) raw text or missing voice id. -/
theorem gsp_guard (text voice_file : List Char) (speed : ℚ) (env : PiperEnv)
    (h : pyStrip text = [] ∨ voice_file = []) :
    generate_speech_piper text voice_file speed env =
      (.err, ⟨false, none, false, false, false, none, none⟩) := by
  unfold generate_speech_piper
  rw [if_pos h]

/-- Exit path of line 97: voice model file not found. -/
theorem gsp_no_voice (text voice_file : List Char) (speed : ℚ) (env : PiperEnv)
    (h : ¬(pyStrip text = [] ∨ voice_file = []))
    (hvx : env.voiceExists = false) :
    generate_speech_piper text voice_file speed env =
      (.err, ⟨true, some (clean_text_for_speech text), true, true, false, none,
        some (piper_speech_filename env.uuidHex)⟩) := by
  unfold generate_speech_piper
  rw [if_neg h]
  simp [hvx]

/-- Exit path of line 106: the Piper executable is missing. -/
theorem gsp_no_piper (text voice_file : List Char) (speed : ℚ) (env : PiperEnv)
    (h : ¬(pyStrip text = [] ∨ voice_file = []))
    (hvx : env.voiceExists = true) (hpx : env.piperExists = false) :
    generate_speech_piper text voice_file speed env =
      (.err, ⟨true, some (clean_text_for_speech text), true, true, false, none,
        some (piper_speech_filename env.uuidHex)⟩) := by
  unfold generate_speech_piper
  rw [if_neg h]
  simp [hvx, hpx]

/-- Exit path of line 114 with `speed = 0`: `ZeroDivisionError`, caught by the
blanket handler at line 154; the temporary file is not removed. -/
theorem gsp_zero_speed (text voice_file : List Char) (speed : ℚ)
    (env : PiperEnv) (h : ¬(pyStrip text = [] ∨ voice_file = []))
    (hvx : env.voiceExists = true) (hpx : env.piperExists = true)
    (hz : speed = 0) :
    generate_speech_piper text voice_file speed env =
      (.err, ⟨true, some (clean_text_for_speech text), false, true, false, none,
        some (piper_speech_filename env.uuidHex)⟩) := by
  unfold generate_speech_piper
  rw [if_neg h]
  simp [hvx, hpx, hz]

/-- Exit path of an I/O exception raised before `subprocess.run`, caught by
the blanket handler at line 154; the temporary file is not removed. -/
theorem gsp_open_raises (text voice_file : List Char) (speed : ℚ)
    (env : PiperEnv) (h : ¬(pyStrip text = [] ∨ voice_file = []))
    (hvx : env.voiceExists = true) (hpx : env.piperExists = true)
    (hs : speed ≠ 0) (ho : env.openRaises = true) :
    generate_speech_piper text voice_file speed env =
      (.err, ⟨true, some (clean_text_for_speech text), false, true, false, none,
        some (piper_speech_filename env.uuidHex)⟩) := by
  unfold generate_speech_piper
  rw [if_neg h]
  simp [hvx, hpx, hs, ho]

/-- Exit paths of lines 142-152: the subprocess is run with
`--length-scale (1.0 / speed)`; the temporary file is removed, and the
result depends on the exit code and the output file's existence. -/
theorem gsp_run (text voice_file : List Char) (speed : ℚ) (env : PiperEnv)
    (h : ¬(pyStrip text = [] ∨ voice_file = []))
    (hvx : env.voiceExists = true) (hpx : env.piperExists = true)
    (hs : speed ≠ 0) (ho : env.openRaises = false) :
    generate_speech_piper text voice_file speed env =
      ((if env.returncode ≠ 0 ∨ env.outputExists = false then PiperResult.err
        else .ok ("/static/audio/".toList ++ piper_speech_filename env.uuidHex)),
       ⟨true, some (clean_text_for_speech text), true, true, true,
        some (1 / speed), some (piper_speech_filename env.uuidHex)⟩) := by
  unfold generate_speech_piper
  rw [if_neg h]
  simp only [hvx, hpx, hs, ho]
  rcases eq_or_ne env.returncode 0 with hr | hr <;>
    rcases hout : env.outputExists with _ | _ <;>
      simp [hr, hout, hs]

/-! ## Claim C1: the length scale -/

/-- C1, counterexample: with `speed = 1.0` the engine is invoked with
length-scale `1.0`, not `(1.0 / speed) * 1.1 = 1.1`; no `baseAdjustment`
tuning constant exists at line 114 of the code. -/
theorem c1_counterexample :
    (generate_speech_piper "hello".toList "en.onnx".toList 1
        ⟨"00".toList, true, true, false, 0, true⟩).2.lengthScaleArg = some 1 ∧
      some (1 : ℚ) ≠ some ((1 / 1) * (11 / 10) : ℚ) := by
  constructor
  · rw [gsp_run "hello".toList "en.onnx".toList 1
      ⟨"00".toList, true, true, false, 0, true⟩
      (by decide) rfl rfl (by norm_num) rfl]
    norm_num
  · intro hc
    rw [Option.some.injEq] at hc
    norm_num at hc

/-- C1, amended: for every synthesis call that reaches the engine (nonempty
stripped text, voice id present, voice and engine found, `speed ≠ 0`, no
I/O exception), the length scale passed to the engine is exactly
`1.0 / speed`, with no `baseAdjustment` factor; in particular a call with
`speed = 1.0` invokes the engine with length-scale `1.0`, not `1.1`. -/
theorem c1_length_scale (text voice_file : List Char) (speed : ℚ)
    (env : PiperEnv) (htext : pyStrip text ≠ []) (hv : voice_file ≠ [])
    (hvx : env.voiceExists = true) (hpx : env.piperExists = true)
    (hs : speed ≠ 0) (ho : env.openRaises = false) :
    (generate_speech_piper text voice_file speed env).2.spawned = true ∧
      (generate_speech_piper text voice_file speed env).2.lengthScaleArg =
        some (1 / speed) := by
  rw [gsp_run text voice_file speed env (not_or.mpr ⟨htext, hv⟩) hvx hpx hs ho]
  exact ⟨rfl, rfl⟩

/-- C1, witness for `c1_length_scale` at `speed = 2`. -/
theorem c1_length_scale_witness :
    (generate_speech_piper "hello".toList "en.onnx".toList 2
        ⟨"00".toList, true, true, false, 0, true⟩).2.spawned = true ∧
      (generate_speech_piper "hello".toList "en.onnx".toList 2
        ⟨"00".toList, true, true, false, 0, true⟩).2.lengthScaleArg =
        some (1 / 2) :=
  c1_length_scale "hello".toList "en.onnx".toList 2
    ⟨"00".toList, true, true, false, 0, true⟩
    (by decide) (by decide) rfl rfl (by norm_num) rfl

/-! ## Claim C2: speed ≤ 0 -/

/-- C2, counterexample: a call with `speed = -1` is not rejected: the
subprocess is spawned (with a negative length scale) and the call even
succeeds; there is no `InvalidSpeed` guard in the code. -/
theorem c2_counterexample :
    (generate_speech_piper "hello".toList "en.onnx".toList (-1)
        ⟨"00".toList, true, true, false, 0, true⟩).2.spawned = true ∧
      (generate_speech_piper "hello".toList "en.onnx".toList (-1)
        ⟨"00".toList, true, true, false, 0, true⟩).1 ≠ PiperResult.err := by
  rw [gsp_run "hello".toList "en.onnx".toList (-1)
    ⟨"00".toList, true, true, false, 0, true⟩
    (by decide) rfl rfl (by norm_num) rfl]
  simp

/-- C2, amended: there is no `InvalidSpeed` failure value.  A call with
`speed = 0` raises `ZeroDivisionError` at line 114, which the blanket
handler converts into the generic failure (`None`) without spawning the
subprocess; a call with negative `speed` is not rejected at all: the
subprocess is spawned with the negative length scale `1.0 / speed`. -/
theorem c2_speed_behavior (text voice_file : List Char) (speed : ℚ)
    (env : PiperEnv) (htext : pyStrip text ≠ []) (hv : voice_file ≠ [])
    (hvx : env.voiceExists = true) (hpx : env.piperExists = true)
    (ho : env.openRaises = false) :
    (speed = 0 →
      (generate_speech_piper text voice_file speed env).1 = PiperResult.err ∧
      (generate_speech_piper text voice_file speed env).2.spawned = false) ∧
    (speed < 0 →
      (generate_speech_piper text voice_file speed env).2.spawned = true ∧
      (generate_speech_piper text voice_file speed env).2.lengthScaleArg =
        some (1 / speed) ∧ (1 / speed : ℚ) < 0) := by
  constructor
  · intro hz
    rw [gsp_zero_speed text voice_file speed env (not_or.mpr ⟨htext, hv⟩)
      hvx hpx hz]
    exact ⟨rfl, rfl⟩
  · intro hneg
    rw [gsp_run text voice_file speed env (not_or.mpr ⟨htext, hv⟩) hvx hpx
      (ne_of_lt hneg) ho]
    exact ⟨rfl, rfl, one_div_neg.mpr hneg⟩

/-- C2, witness for `c2_speed_behavior` at `speed = 0` and `speed = -1`. -/
theorem c2_speed_behavior_witness :
    ((generate_speech_piper "hello".toList "en.onnx".toList 0
        ⟨"00".toList, true, true, false, 0, true⟩).1 = PiperResult.err ∧
      (generate_speech_piper "hello".toList "en.onnx".toList 0
        ⟨"00".toList, true, true, false, 0, true⟩).2.spawned = false) ∧
    ((generate_speech_piper "hello".toList "en.onnx".toList (-1)
        ⟨"00".toList, true, true, false, 0, true⟩).2.spawned = true ∧
      (generate_speech_piper "hello".toList "en.onnx".toList (-1)
        ⟨"00".toList, true, true, false, 0, true⟩).2.lengthScaleArg =
        some (1 / (-1)) ∧ (1 / (-1) : ℚ) < 0) :=
  ⟨(c2_speed_behavior "hello".toList "en.onnx".toList 0
      ⟨"00".toList, true, true, false, 0, true⟩
      (by decide) (by decide) rfl rfl rfl).1 rfl,
    (c2_speed_behavior "hello".toList "en.onnx".toList (-1)
      ⟨"00".toList, true, true, false, 0, true⟩
      (by decide) (by decide) rfl rfl rfl).2 (by norm_num)⟩

/-! ## Claim C3: the empty-input guard -/

/-- C3, counterexample: the input `"@"` has an empty normalized form, yet
the call is not rejected: the guard at line 80 tests the raw text, so the
temporary text artifact is written (holding the empty normalized text) and
the subprocess is spawned. -/
theorem c3_counterexample :
    clean_text_for_speech "@".toList = [] ∧
      (generate_speech_piper "@".toList "en.onnx".toList 1
        ⟨"00".toList, true, true, false, 0, true⟩).2.tempCreated = true ∧
      (generate_speech_piper "@".toList "en.onnx".toList 1
        ⟨"00".toList, true, true, false, 0, true⟩).2.tempContent = some [] ∧
      (generate_speech_piper "@".toList "en.onnx".toList 1
        ⟨"00".toList, true, true, false, 0, true⟩).2.spawned = true := by
  refine ⟨by decide, ?_⟩
  rw [gsp_run "@".toList "en.onnx".toList 1
    ⟨"00".toList, true, true, false, 0, true⟩
    (by decide) rfl rfl (by norm_num) rfl]
  refine ⟨rfl, ?_, rfl⟩
  show some (clean_text_for_speech "@".toList) = some []
  decide

/-- C3, amended: the immediate rejection tests the *raw* text: a call whose
raw text strips to the empty string, or whose voice id is absent, returns
the failure without creating the text artifact, without checking the voice,
and without spawning the subprocess.  An input whose *normalized* form is
empty but whose raw form is not (for example `"@"`) is not rejected. -/
theorem c3_raw_guard (text voice_file : List Char) (speed : ℚ)
    (env : PiperEnv) (h : pyStrip text = [] ∨ voice_file = []) :
    (generate_speech_piper text voice_file speed env).1 = PiperResult.err ∧
      (generate_speech_piper text voice_file speed env).2.tempCreated = false ∧
      (generate_speech_piper text voice_file speed env).2.voiceChecked = false ∧
      (generate_speech_piper text voice_file speed env).2.spawned = false := by
  rw [gsp_guard text voice_file speed env h]
  exact ⟨rfl, rfl, rfl, rfl⟩

/-- C3, witness for `c3_raw_guard` on all-whitespace input. -/
theorem c3_raw_guard_witness :
    (generate_speech_piper "  ".toList "en.onnx".toList 1
        ⟨"00".toList, true, true, false, 0, true⟩).1 = PiperResult.err ∧
      (generate_speech_piper "  ".toList "en.onnx".toList 1
        ⟨"00".toList, true, true, false, 0, true⟩).2.tempCreated = false ∧
      (generate_speech_piper "  ".toList "en.onnx".toList 1
        ⟨"00".toList, true, true, false, 0, true⟩).2.voiceChecked = false ∧
      (generate_speech_piper "  ".toList "en.onnx".toList 1
        ⟨"00".toList, true, true, false, 0, true⟩).2.spawned = false :=
  c3_raw_guard "  ".toList "en.onnx".toList 1
    ⟨"00".toList, true, true, false, 0, true⟩ (Or.inl (by decide))

/-! ## Claim C4: removal of the transient text artifact -/

/-- C4, counterexample: on the exception exit path — here the
`ZeroDivisionError` raised by `speed = 0` at line 114 — the blanket
handler at line 154 returns without removing the temporary text file:
the artifact was created but its removal was never attempted. -/
theorem c4_counterexample :
    (generate_speech_piper "hello".toList "en.onnx".toList 0
        ⟨"00".toList, true, true, false, 0, true⟩).2.tempCreated = true ∧
      (generate_speech_piper "hello".toList "en.onnx".toList 0
        ⟨"00".toList, true, true, false, 0, true⟩).2.unlinkAttempted = false := by
  rw [gsp_zero_speed "hello".toList "en.onnx".toList 0
    ⟨"00".toList, true, true, false, 0, true⟩ (by decide) rfl rfl rfl]
  exact ⟨rfl, rfl⟩

/-- C4, amended: on the voice-not-found, engine-missing, nonzero-exit-code,
missing-output-file and success exit paths, removal of the transient text
artifact is attempted before returning (with `OSError` swallowed); on the
exception exit path — `ZeroDivisionError` from `speed = 0`, or an I/O
exception raised before `subprocess.run` — the artifact is *not* removed. -/
theorem c4_cleanup_paths (text voice_file : List Char) (speed : ℚ)
    (env : PiperEnv) (hs : speed ≠ 0) (ho : env.openRaises = false) :
    (generate_speech_piper text voice_file speed env).2.tempCreated = true →
      (generate_speech_piper text voice_file speed env).2.unlinkAttempted =
        true := by
  by_cases hg : pyStrip text = [] ∨ voice_file = []
  · rw [gsp_guard text voice_file speed env hg]
    intro hc
    exact absurd hc (by simp)
  · rcases hvx : env.voiceExists with _ | _
    · rw [gsp_no_voice text voice_file speed env hg hvx]
      intro _; rfl
    · rcases hpx : env.piperExists with _ | _
      · rw [gsp_no_piper text voice_file speed env hg hvx hpx]
        intro _; rfl
      · rw [gsp_run text voice_file speed env hg hvx hpx hs ho]
        intro _; rfl

/-- C4, witness for `c4_cleanup_paths` on the voice-not-found path. -/
theorem c4_cleanup_paths_witness :
    (generate_speech_piper "hello".toList "en.onnx".toList 1
        ⟨"00".toList, false, true, false, 0, true⟩).2.unlinkAttempted = true :=
  c4_cleanup_paths "hello".toList "en.onnx".toList 1
    ⟨"00".toList, false, true, false, 0, true⟩ (by norm_num) rfl (by decide)

/-! ## Claim C7: voice-resolution caching -/

/-- C7, counterexample: there is no cache.  A call resolving `en.onnx`
succeeds; a later call for the same voice id still consults the
filesystem (`voiceChecked`), and fails as soon as the file is gone —
it is not answered from any cache. -/
theorem c7_counterexample :
    (generate_speech_piper "hi".toList "en.onnx".toList 1
        ⟨"00".toList, true, true, false, 0, true⟩).1 ≠ PiperResult.err ∧
      (generate_speech_piper "hi".toList "en.onnx".toList 1
        ⟨"00".toList, false, true, false, 0, true⟩).2.voiceChecked = true ∧
      (generate_speech_piper "hi".toList "en.onnx".toList 1
        ⟨"00".toList, false, true, false, 0, true⟩).1 = PiperResult.err := by
  refine ⟨?_, ?_, ?_⟩
  · rw [gsp_run "hi".toList "en.onnx".toList 1
      ⟨"00".toList, true, true, false, 0, true⟩
      (by decide) rfl rfl (by norm_num) rfl]
    simp
  · rw [gsp_no_voice "hi".toList "en.onnx".toList 1
      ⟨"00".toList, false, true, false, 0, true⟩ (by decide) rfl]
  · rw [gsp_no_voice "hi".toList "en.onnx".toList 1
      ⟨"00".toList, false, true, false, 0, true⟩ (by decide) rfl]

/-- C7, amended: voice resolutions are not cached at all: every call that
passes the raw-input guard evaluates `os.path.exists` on the voice model
path, however often the same voice id was resolved before; the function
keeps no state between calls. -/
theorem c7_always_checks (text voice_file : List Char) (speed : ℚ)
    (env : PiperEnv) (htext : pyStrip text ≠ []) (hv : voice_file ≠ []) :
    (generate_speech_piper text voice_file speed env).2.voiceChecked =
      true := by
  have hg : ¬(pyStrip text = [] ∨ voice_file = []) := not_or.mpr ⟨htext, hv⟩
  rcases hvx : env.voiceExists with _ | _
  · rw [gsp_no_voice text voice_file speed env hg hvx]
  · rcases hpx : env.piperExists with _ | _
    · rw [gsp_no_piper text voice_file speed env hg hvx hpx]
    · by_cases hz : speed = 0
      · rw [gsp_zero_speed text voice_file speed env hg hvx hpx hz]
      · rcases ho : env.openRaises with _ | _
        · rw [gsp_run text voice_file speed env hg hvx hpx hz ho]
        · rw [gsp_open_raises text voice_file speed env hg hvx hpx hz ho]

/-- C7, witness for `c7_always_checks`. -/
theorem c7_always_checks_witness :
    (generate_speech_piper "hi".toList "en.onnx".toList 1
        ⟨"00".toList, true, true, false, 0, true⟩).2.voiceChecked = true :=
  c7_always_checks "hi".toList "en.onnx".toList 1
    ⟨"00".toList, true, true, false, 0, true⟩ (by decide) (by decide)

/-! ## String lemmas for the artifact-path computations -/

theorem pyReplaceAux_nil (pat rep : List Char) (fuel : Nat) :
    pyReplaceAux pat rep fuel [] = [] := by
  cases fuel <;> rfl

theorem pyReplaceAux_wav (a : List Char) (r : List Char) :
    ∀ fuel, a.length < fuel → '.' ∉ a →
      pyReplaceAux ".wav".toList r fuel (a ++ ".wav".toList) = a ++ r := by
  induction a with
  | nil =>
    intro fuel hfuel _
    match fuel, hfuel with
    | f + 1, _ =>
      show r ++ pyReplaceAux ".wav".toList r f [] = [] ++ r
      rw [pyReplaceAux_nil]
      simp
  | cons c a ih =>
    intro fuel hfuel hdot
    match fuel, hfuel with
    | f + 1, hfuel =>
      have hc : c ≠ '.' := by
        intro hc
        exact hdot (hc ▸ List.mem_cons_self c a)
      have hda : '.' ∉ a := fun hm => hdot (List.mem_cons_of_mem c hm)
      have hpre : (".wav".toList).isPrefixOf (c :: (a ++ ".wav".toList)) =
          false := by
        show (('.' == c) && _) = false
        simp [Ne.symm hc]
      show (if (".wav".toList).isPrefixOf (c :: (a ++ ".wav".toList)) then _
        else c :: pyReplaceAux ".wav".toList r f (a ++ ".wav".toList)) = _
      rw [hpre]
      simp only [Bool.false_eq_true, if_false, List.cons_append,
        List.cons.injEq, true_and]
      exact ih f (by simpa using Nat.lt_of_succ_lt_succ hfuel) hda

/-- `str.replace('.wav', r)` on a dot-free stem followed by `.wav` replaces
exactly the final extension. -/
theorem pyReplace_wav (a r : List Char) (hdot : '.' ∉ a) :
    pyReplace (a ++ ".wav".toList) ".wav".toList r = a ++ r := by
  unfold pyReplace
  exact pyReplaceAux_wav a r _ (by simp; omega) hdot

theorem takeWhile_all_append (p : Char → Bool) (l : List Char) (x : Char)
    (r : List Char) (hl : ∀ c ∈ l, p c = true) (hx : p x = false) :
    List.takeWhile p (l ++ x :: r) = l := by
  induction l with
  | nil => simp [List.takeWhile, hx]
  | cons c t ih =>
    have hc : p c = true := hl c (List.mem_cons_self c t)
    rw [List.cons_append, List.takeWhile_cons_of_pos hc,
      ih fun d hd => hl d (List.mem_cons_of_mem c hd)]

/-- `os.path.basename` of a path whose final component is slash-free. -/
theorem pyBasename_append (a b : List Char) (hb : '/' ∉ b) :
    pyBasename (a ++ '/' :: b) = b := by
  unfold pyBasename
  have h1 : (a ++ '/' :: b).reverse = b.reverse ++ '/' :: a.reverse := by
    simp
  rw [h1, takeWhile_all_append _ _ _ _ ?_ (by simp), List.reverse_reverse]
  intro c hc
  simp only [decide_eq_true_eq]
  intro hcs
  exact hb (hcs ▸ List.mem_reverse.mp hc)

theorem pyBasename_no_slash (s : List Char) : '/' ∉ pyBasename s := by
  intro hmem
  unfold pyBasename at hmem
  have := List.mem_takeWhile_imp (List.mem_reverse.mp hmem)
  simp at this

/-! ## Claim C6: artifact filenames -/

/-- C6, counterexample: the transcoded filename's extension is taken verbatim
from the request's `output_format` field: two different user-supplied
formats yield two different artifact filenames, so the extension is
user-derived, not fixed. -/
theorem c6_counterexample :
    generate_speech_transcode "cw".toList "piper_speech_00.wav".toList
        "mp3".toList ⟨true, true, false⟩ =
      ⟨"/static/audio/piper_speech_00.mp3".toList, true, true⟩ ∧
    generate_speech_transcode "cw".toList "piper_speech_00.wav".toList
        "evil".toList ⟨true, true, false⟩ =
      ⟨"/static/audio/piper_speech_00.evil".toList, true, true⟩ ∧
    (generate_speech_transcode "cw".toList "piper_speech_00.wav".toList
        "mp3".toList ⟨true, true, false⟩).audioPath ≠
      (generate_speech_transcode "cw".toList "piper_speech_00.wav".toList
        "evil".toList ⟨true, true, false⟩).audioPath := by
  refine ⟨?_, ?_, ?_⟩ <;> decide

/-- C6, amended: the initial synthesis filename is
`piper_speech_<uuid>.wav` — a fixed prefix, the random token, and a fixed
extension, with no dependence on the request's text, voice or speed; the
*transcoded* filename, however, is the synthesis filename with `.wav`
replaced by `.<output_format>`, whose extension is the request's
unvalidated `output_format` string, hence user-derived. -/
theorem c6_filenames :
    (∀ (text voice_file : List Char) (speed : ℚ) (env : PiperEnv),
      pyStrip text ≠ [] → voice_file ≠ [] →
      (generate_speech_piper text voice_file speed env).2.outputFilename =
        some ("piper_speech_".toList ++ env.uuidHex ++ ".wav".toList)) ∧
    (∀ (wav_stem fmt : List Char) (env : ConvEnv),
      env.ffmpegAvailable = true → env.ffmpegSucceeds = true →
      '.' ∉ wav_stem →
      convert_audio_format (wav_stem ++ ".wav".toList) fmt env =
        some (wav_stem ++ '.' :: fmt)) := by
  constructor
  · intro text voice_file speed env htext hv
    have hg : ¬(pyStrip text = [] ∨ voice_file = []) := not_or.mpr ⟨htext, hv⟩
    rcases hvx : env.voiceExists with _ | _
    · rw [gsp_no_voice text voice_file speed env hg hvx]; rfl
    · rcases hpx : env.piperExists with _ | _
      · rw [gsp_no_piper text voice_file speed env hg hvx hpx]; rfl
      · by_cases hz : speed = 0
        · rw [gsp_zero_speed text voice_file speed env hg hvx hpx hz]; rfl
        · rcases ho : env.openRaises with _ | _
          · rw [gsp_run text voice_file speed env hg hvx hpx hz ho]; rfl
          · rw [gsp_open_raises text voice_file speed env hg hvx hpx hz ho]
            rfl
  · intro wav_stem fmt env hav hsu hdot
    unfold convert_audio_format
    rw [hav, hsu]
    simp only [Bool.true_eq_false, if_false, if_true]
    rw [pyReplace_wav wav_stem ('.' :: fmt) hdot]

/-- C6, witness for `c6_filenames`. -/
theorem c6_filenames_witness :
    (generate_speech_piper "hello".toList "en.onnx".toList 1
        ⟨"ab".toList, true, true, false, 0, true⟩).2.outputFilename =
      some ("piper_speech_".toList ++ "ab".toList ++ ".wav".toList) ∧
    convert_audio_format ("piper_speech_ab".toList ++ ".wav".toList)
        "mp3".toList ⟨true, true, false⟩ =
      some ("piper_speech_ab".toList ++ '.' :: "mp3".toList) :=
  ⟨c6_filenames.1 "hello".toList "en.onnx".toList 1
      ⟨"ab".toList, true, true, false, 0, true⟩ (by decide) (by decide),
    c6_filenames.2 "piper_speech_ab".toList "mp3".toList
      ⟨true, true, false⟩ rfl rfl (by decide)⟩

/-! ## Claim C8: atomicity of the transcoding step -/

/-- C8: if the external transcoder is unavailable or fails,
`convert_audio_format` returns the failure (`None`), the route keeps
serving the original wav artifact, and no removal of the original is ever
attempted (nothing writes to it either); if transcoding succeeds (and
`os.remove` does not raise), the original artifact is removed and the
served artifact carries the target extension. -/
theorem c8_transcode :
    (∀ (cwd wavName fmt : List Char) (env : ConvEnv),
      fmt ≠ "wav".toList →
      (env.ffmpegAvailable = false ∨ env.ffmpegSucceeds = false) →
      convert_audio_format (joinPath cwd ("static/audio/".toList ++ wavName))
          fmt env = none ∧
      generate_speech_transcode cwd wavName fmt env =
        ⟨"/static/audio/".toList ++ wavName, false, false⟩) ∧
    (∀ (cwd stem fmt : List Char) (env : ConvEnv),
      env.ffmpegAvailable = true → env.ffmpegSucceeds = true →
      env.removeRaises = false → fmt ≠ "wav".toList →
      '.' ∉ cwd → '.' ∉ stem → '/' ∉ stem → '/' ∉ fmt →
      generate_speech_transcode cwd (stem ++ ".wav".toList) fmt env =
        ⟨"/static/audio/".toList ++ (stem ++ '.' :: fmt), true, true⟩) := by
  constructor
  · intro cwd wavName fmt env hfmt hfail
    have hconv : convert_audio_format
        (joinPath cwd ("static/audio/".toList ++ wavName)) fmt env = none := by
      unfold convert_audio_format
      rcases hfail with hfail | hfail <;> simp [hfail]
    refine ⟨hconv, ?_⟩
    unfold generate_speech_transcode
    rw [if_neg hfmt, hconv]
  · intro cwd stem fmt env hav hsu hrm hfmt hdc hds hfs hff
    have hshape : joinPath cwd ("static/audio/".toList ++
        (stem ++ ".wav".toList)) =
        (cwd ++ '/' :: "static/audio/".toList ++ stem) ++ ".wav".toList := by
      unfold joinPath
      simp
    have hdotfree : '.' ∉ cwd ++ '/' :: "static/audio/".toList ++ stem := by
      intro hmem
      rcases List.mem_append.mp hmem with hmem | hmem
      · rcases List.mem_append.mp hmem with hmem | hmem
        · exact hdc hmem
        · revert hmem; decide
      · exact hds hmem
    have hconv : convert_audio_format (joinPath cwd ("static/audio/".toList ++
        (stem ++ ".wav".toList))) fmt env =
        some ((cwd ++ '/' :: "static/audio/".toList ++ stem) ++ '.' :: fmt) := by
      unfold convert_audio_format
      rw [hav, hsu]
      simp only [Bool.true_eq_false, if_false, if_true]
      rw [hshape, pyReplace_wav _ _ hdotfree]
    have hbase : pyBasename ((cwd ++ '/' :: "static/audio/".toList ++ stem) ++
        '.' :: fmt) = stem ++ '.' :: fmt := by
      have hre : (cwd ++ '/' :: "static/audio/".toList ++ stem) ++
          '.' :: fmt =
          (cwd ++ '/' :: "static/audio".toList) ++ '/' :: (stem ++ '.' :: fmt) := by
        have : ('/' : Char) :: "static/audio/".toList =
            ('/' :: "static/audio".toList) ++ ['/'] := by decide
        rw [this]
        simp
      rw [hre]
      apply pyBasename_append
      intro hmem
      rcases List.mem_append.mp hmem with hmem | hmem
      · exact hfs hmem
      · rcases List.mem_cons.mp hmem with hmem | hmem
        · exact absurd hmem (by decide)
        · exact hff hmem
    unfold generate_speech_transcode
    rw [if_neg hfmt, hconv]
    simp [hrm]
    simpa using hbase

/-- C8, witness for `c8_transcode` on both branches. -/
theorem c8_transcode_witness :
    (convert_audio_format (joinPath "cw".toList
        ("static/audio/".toList ++ "piper_speech_00.wav".toList))
        "mp3".toList ⟨false, true, false⟩ = none ∧
      generate_speech_transcode "cw".toList "piper_speech_00.wav".toList
        "mp3".toList ⟨false, true, false⟩ =
        ⟨"/static/audio/".toList ++ "piper_speech_00.wav".toList, false,
          false⟩) ∧
    generate_speech_transcode "cw".toList
        ("piper_speech_00".toList ++ ".wav".toList) "mp3".toList
        ⟨true, true, false⟩ =
      ⟨"/static/audio/".toList ++ ("piper_speech_00".toList ++
        '.' :: "mp3".toList), true, true⟩ :=
  ⟨c8_transcode.1 "cw".toList "piper_speech_00.wav".toList "mp3".toList
      ⟨false, true, false⟩ (by decide) (Or.inl rfl),
    c8_transcode.2 "cw".toList "piper_speech_00".toList "mp3".toList
      ⟨true, true, false⟩ rfl rfl rfl (by decide) (by decide) (by decide)
      (by decide) (by decide)⟩

/-! ## Claim C9: age-based eviction -/

theorem cleanup_sweep_spec (cutoff : ℚ) (l : List DirEntry) :
    (cleanup_sweep cutoff l).1 =
      (l.filter (fun f => f.isFile && decide (f.mtime < cutoff) &&
        f.removable)).length ∧
    (cleanup_sweep cutoff l).2 =
      l.filter (fun f => !(f.isFile && decide (f.mtime < cutoff) &&
        f.removable)) := by
  induction l with
  | nil => exact ⟨rfl, rfl⟩
  | cons f t ih =>
    by_cases h1 : f.isFile = true ∧ f.mtime < cutoff
    · by_cases h2 : f.removable = true
      · constructor
        · simp [cleanup_sweep, h1, List.filter_cons, h1.1, h1.2, h2, ih.1]
        · simp [cleanup_sweep, h1, List.filter_cons, h1.1, h1.2, h2, ih.2]
      · have h2' : f.removable = false := Bool.not_eq_true _ ▸ h2
        constructor
        · simp [cleanup_sweep, h1, List.filter_cons, h1.1, h1.2, h2', ih.1]
        · simp [cleanup_sweep, h1, List.filter_cons, h1.1, h1.2, h2', ih.2]
    · have hcond : (f.isFile && decide (f.mtime < cutoff) && f.removable) =
          false := by
        rcases not_and_or.mp h1 with h | h
        · simp [Bool.not_eq_true _ ▸ h]
        · simp [h]
      have hor : (f.isFile = false ∨ cutoff ≤ f.mtime) ∨ f.removable = false := by
        rcases not_and_or.mp h1 with h | h
        · exact Or.inl (Or.inl (Bool.not_eq_true _ ▸ h))
        · exact Or.inl (Or.inr (not_lt.mp h))
      constructor
      · simp [cleanup_sweep, h1, List.filter_cons, hcond, ih.1]
      · simp [cleanup_sweep, h1, List.filter_cons, hcond, ih.2, hor]

theorem cleanup_sweep_zero (cutoff : ℚ) (l : List DirEntry)
    (h : ∀ f ∈ l, (f.isFile && decide (f.mtime < cutoff) && f.removable) =
      false) :
    (cleanup_sweep cutoff l).1 = 0 := by
  rw [(cleanup_sweep_spec cutoff l).1]
  rw [List.filter_eq_nil_iff.mpr fun f hf => by simp [h f hf]]
  rfl

/-- C9: the sweep with cutoff `now - d` deletes exactly the entries that are
regular files with modification time strictly before the cutoff and whose
deletion succeeds; deletion failures are skipped; the returned count is the
number of entries actually deleted; a second immediate sweep over the
remaining entries deletes zero; and the `cleanup` route is this sweep with
`d = 3600`. -/
theorem c9_evict (now d : ℚ) (dir : List DirEntry) :
    (cleanup_sweep (now - d) dir).1 =
      (dir.filter (fun f => f.isFile && decide (f.mtime < now - d) &&
        f.removable)).length ∧
    (cleanup_sweep (now - d) dir).2 =
      dir.filter (fun f => !(f.isFile && decide (f.mtime < now - d) &&
        f.removable)) ∧
    (cleanup_sweep (now - d) (cleanup_sweep (now - d) dir).2).1 = 0 ∧
    cleanup now dir = cleanup_sweep (now - 3600) dir := by
  refine ⟨(cleanup_sweep_spec _ dir).1, (cleanup_sweep_spec _ dir).2, ?_, rfl⟩
  apply cleanup_sweep_zero
  intro f hf
  rw [(cleanup_sweep_spec _ dir).2] at hf
  have h2 := List.of_mem_filter hf
  simp only [Bool.not_eq_eq_eq_not, Bool.not_true] at h2
  exact h2

/-! ## Claim C10: traversal safety of the download route -/

/-- C10: the download route only ever serves the file at
`AUDIO_DIR/basename(filename)`: whatever the request string — directory
separators, `..` components — the served path is the basename joined under
`AUDIO_DIR`, the basename contains no separator, and a served path is never
the `..`, `.` or empty component (those resolve to directories, which
`send_file` refuses); when the path does not exist the route returns the
404 not-found result. -/
theorem c10_download_safe (filename : List Char) (fs : DownloadFS)
    (h1 : fs.isFile (joinPath AUDIO_DIR "..".toList) = false)
    (h2 : fs.isFile (joinPath AUDIO_DIR ".".toList) = false)
    (h3 : fs.isFile (joinPath AUDIO_DIR []) = false) :
    (fs.pathExists (joinPath AUDIO_DIR (pyBasename filename)) = false →
      download_audio filename fs = DownloadResult.notFound) ∧
    (∀ p, download_audio filename fs = DownloadResult.served p →
      p = joinPath AUDIO_DIR (pyBasename filename) ∧
      '/' ∉ pyBasename filename ∧
      pyBasename filename ≠ "..".toList ∧
      pyBasename filename ≠ ".".toList ∧
      pyBasename filename ≠ []) := by
  constructor
  · intro hne
    unfold download_audio
    rw [if_pos hne]
  · intro p hp
    unfold download_audio at hp
    by_cases hex : fs.pathExists (joinPath AUDIO_DIR (pyBasename filename)) =
      false
    · rw [if_pos hex] at hp
      exact absurd hp (by simp)
    · rw [if_neg hex] at hp
      by_cases hf : fs.isFile (joinPath AUDIO_DIR (pyBasename filename)) =
        true
      · rw [if_pos hf] at hp
        have hpe : p = joinPath AUDIO_DIR (pyBasename filename) :=
          (DownloadResult.served.injEq _ _ ▸ hp).symm
        refine ⟨hpe, pyBasename_no_slash filename, ?_, ?_, ?_⟩
        · intro hcontra
          rw [hcontra, h1] at hf
          exact Bool.false_ne_true hf
        · intro hcontra
          rw [hcontra, h2] at hf
          exact Bool.false_ne_true hf
        · intro hcontra
          rw [hcontra, h3] at hf
          exact Bool.false_ne_true hf
      · rw [if_neg hf] at hp
        exact absurd hp (by simp)

/-- C10, witness for `c10_download_safe` on a traversal attempt against an
empty filesystem. -/
theorem c10_download_safe_witness :
    download_audio "../../etc/passwd".toList
      ⟨fun _ => false, fun _ => false⟩ = DownloadResult.notFound :=
  (c10_download_safe "../../etc/passwd".toList
    ⟨fun _ => false, fun _ => false⟩ rfl rfl rfl).1 rfl

/-! ## Claim C5: lemmas on the whitespace-normalization stages -/

theorem mem_collapseAux {c : Char} :
    ∀ (b : Bool) (s : List Char), c ∈ collapseAux b s →
      c = ' ' ∨ (c ∈ s ∧ isPySpace c = false) := by
  intro b s
  induction s generalizing b with
  | nil =>
    intro h
    simp [collapseAux] at h
  | cons d t ih =>
    intro h
    by_cases hd : isPySpace d = true
    · rcases b with _ | _
      · rw [show collapseAux false (d :: t) = ' ' :: collapseAux true t from by
          simp [collapseAux, hd]] at h
        rcases List.mem_cons.mp h with h | h
        · exact Or.inl h
        · rcases ih true h with h | ⟨h1, h2⟩
          · exact Or.inl h
          · exact Or.inr ⟨List.mem_cons_of_mem d h1, h2⟩
      · rw [show collapseAux true (d :: t) = collapseAux true t from by
          simp [collapseAux, hd]] at h
        rcases ih true h with h | ⟨h1, h2⟩
        · exact Or.inl h
        · exact Or.inr ⟨List.mem_cons_of_mem d h1, h2⟩
    · rw [show collapseAux b (d :: t) = d :: collapseAux false t from by
        simp [collapseAux, hd]] at h
      rcases List.mem_cons.mp h with h | h
      · refine Or.inr ⟨?_, ?_⟩
        · rw [h]; exact List.mem_cons_self d t
        · rw [h]; exact Bool.not_eq_true _ ▸ hd
      · rcases ih false h with h | ⟨h1, h2⟩
        · exact Or.inl h
        · exact Or.inr ⟨List.mem_cons_of_mem d h1, h2⟩

theorem collapse_ws_space (b : Bool) (s : List Char) (c : Char)
    (hc : c ∈ collapseAux b s) (hws : isPySpace c = true) : c = ' ' := by
  rcases mem_collapseAux b s hc with h | ⟨_, h2⟩
  · exact h
  · rw [h2] at hws
    exact absurd hws Bool.false_ne_true

theorem collapse_true_head (s : List Char) :
    ∀ c, (collapseAux true s).head? = some c → c ≠ ' ' := by
  induction s with
  | nil =>
    intro c h
    exact absurd h (by simp [collapseAux])
  | cons d t ih =>
    intro c h
    by_cases hd : isPySpace d = true
    · rw [show collapseAux true (d :: t) = collapseAux true t from by
        simp [collapseAux, hd]] at h
      exact ih c h
    · rw [show collapseAux true (d :: t) = d :: collapseAux false t from by
        simp [collapseAux, hd]] at h
      have hdc : d = c := by simpa using h
      intro hsp
      exact hd (by rw [hdc, hsp]; decide)

theorem collapse_chain (s : List Char) :
    ∀ b, List.Chain' (fun a b => ¬(a = ' ' ∧ b = ' ')) (collapseAux b s) := by
  induction s with
  | nil =>
    intro b
    exact List.chain'_nil
  | cons c t ih =>
    intro b
    by_cases hc : isPySpace c = true
    · rcases b with _ | _
      · rw [show collapseAux false (c :: t) = ' ' :: collapseAux true t from by
          simp [collapseAux, hc]]
        rw [List.chain'_cons']
        refine ⟨?_, ih true⟩
        intro y hy hcontra
        exact collapse_true_head t y hy hcontra.2
      · rw [show collapseAux true (c :: t) = collapseAux true t from by
          simp [collapseAux, hc]]
        exact ih true
    · rw [show collapseAux b (c :: t) = c :: collapseAux false t from by
        simp [collapseAux, hc]]
      rw [List.chain'_cons']
      refine ⟨?_, ih false⟩
      intro y _ hcontra
      exact hc (by rw [hcontra.1]; decide)

theorem collapse_noop :
    ∀ (s : List Char), (∀ c ∈ s, isPySpace c = true → c = ' ') →
      List.Chain' (fun a b => ¬(a = ' ' ∧ b = ' ')) s →
      collapseAux false s = s ∧
        (s.head? ≠ some ' ' → collapseAux true s = s) := by
  intro s
  induction s with
  | nil =>
    intro _ _
    exact ⟨rfl, fun _ => rfl⟩
  | cons c t ih =>
    intro hws hch
    have hwst : ∀ c' ∈ t, isPySpace c' = true → c' = ' ' :=
      fun c' hc' => hws c' (List.mem_cons_of_mem c hc')
    have hcht := hch.tail
    by_cases hc : isPySpace c = true
    · have hcsp : c = ' ' := hws c (List.mem_cons_self c t) hc
      subst hcsp
      constructor
      · rw [show collapseAux false (' ' :: t) = ' ' :: collapseAux true t from
          by simp [collapseAux, show isPySpace ' ' = true from by decide]]
        have hhead : t.head? ≠ some ' ' := by
          intro hh
          exact (List.chain'_cons'.mp hch).1 ' ' hh ⟨rfl, rfl⟩
        rw [(ih hwst hcht).2 hhead]
      · intro hcontra
        exact absurd rfl hcontra
    · have h1 : collapseAux false (c :: t) = c :: collapseAux false t := by
        simp [collapseAux, hc]
      have h2 : collapseAux true (c :: t) = c :: collapseAux false t := by
        simp [collapseAux, hc]
      have hft := (ih hwst hcht).1
      exact ⟨by rw [h1, hft], fun _ => by rw [h2, hft]⟩

theorem chain'_dropWhile (p : Char → Bool) {R : Char → Char → Prop}
    (l : List Char) (h : List.Chain' R l) :
    List.Chain' R (l.dropWhile p) := by
  induction l with
  | nil => exact h
  | cons c t ih =>
    rw [List.dropWhile_cons]
    by_cases hc : p c = true
    · rw [if_pos hc]
      exact ih h.tail
    · rw [if_neg hc]
      exact h

theorem chain'_pyStrip (s : List Char)
    (h : List.Chain' (fun a b => ¬(a = ' ' ∧ b = ' ')) s) :
    List.Chain' (fun a b => ¬(a = ' ' ∧ b = ' ')) (pyStrip s) := by
  unfold pyStrip rtrim ltrim
  have h1 := chain'_dropWhile isPySpace s h
  have h2 : List.Chain' (fun a b => ¬(a = ' ' ∧ b = ' '))
      ((s.dropWhile isPySpace).reverse) := by
    rw [List.chain'_reverse]
    exact h1.imp fun a b hab hc => hab ⟨hc.2, hc.1⟩
  have h3 := chain'_dropWhile isPySpace _ h2
  rw [List.chain'_reverse]
  exact h3.imp fun a b hab hc => hab ⟨hc.2, hc.1⟩

theorem mem_pyStrip (s : List Char) (c : Char) (h : c ∈ pyStrip s) :
    c ∈ s := by
  unfold pyStrip rtrim ltrim at h
  have h1 := List.mem_reverse.mp h
  exact List.dropWhile_subset _
    (List.mem_reverse.mp (List.dropWhile_subset _ h1))

theorem dropWhile_head_not (p : Char → Bool) (s : List Char) :
    ∀ c, (s.dropWhile p).head? = some c → p c = false := by
  induction s with
  | nil =>
    intro c h
    exact absurd h (by simp)
  | cons d t ih =>
    intro c h
    rw [List.dropWhile_cons] at h
    by_cases hd : p d = true
    · rw [if_pos hd] at h
      exact ih c h
    · rw [if_neg hd] at h
      have hdc : d = c := by simpa using h
      rw [← hdc]
      exact Bool.not_eq_true _ ▸ hd

theorem dropWhile_eq_self_of_head (p : Char → Bool) (s : List Char)
    (h : ∀ c, s.head? = some c → p c = false) :
    s.dropWhile p = s := by
  cases s with
  | nil => rfl
  | cons c t =>
    rw [List.dropWhile_cons, if_neg]
    rw [h c rfl]
    exact Bool.false_ne_true

theorem rtrim_eq_self (s : List Char)
    (h : ∀ c, s.getLast? = some c → isPySpace c = false) : rtrim s = s := by
  unfold rtrim
  rw [dropWhile_eq_self_of_head isPySpace s.reverse
    (fun c hc => h c (by rw [← List.head?_reverse]; exact hc)),
    List.reverse_reverse]

theorem rtrim_append (s : List Char) : ∃ t, s = rtrim s ++ t := by
  unfold rtrim
  obtain ⟨t, ht⟩ := List.dropWhile_suffix (l := s.reverse) isPySpace
  refine ⟨t.reverse, ?_⟩
  have h2 : ((List.dropWhile isPySpace s.reverse).reverse ++
      t.reverse).reverse = s.reverse := by
    rw [List.reverse_append, List.reverse_reverse, List.reverse_reverse, ht]
  calc s = s.reverse.reverse := (List.reverse_reverse s).symm
    _ = (((List.dropWhile isPySpace s.reverse).reverse ++
        t.reverse).reverse).reverse := by rw [h2]
    _ = (List.dropWhile isPySpace s.reverse).reverse ++ t.reverse :=
        List.reverse_reverse _

theorem pyStrip_head (s : List Char) :
    ∀ c, (pyStrip s).head? = some c → isPySpace c = false := by
  intro c h
  unfold pyStrip at h
  obtain ⟨t, ht⟩ := rtrim_append (ltrim s)
  have hv : (ltrim s).head? = some c := by
    rw [ht]
    cases hr : rtrim (ltrim s) with
    | nil =>
      rw [hr] at h
      exact absurd h (by simp)
    | cons d r =>
      rw [hr] at h
      have : d = c := by simpa using h
      rw [List.cons_append]
      simpa using this
  exact dropWhile_head_not isPySpace s c hv

theorem pyStrip_getLast (s : List Char) :
    ∀ c, (pyStrip s).getLast? = some c → isPySpace c = false := by
  intro c h
  unfold pyStrip rtrim at h
  have h2 : (((ltrim s).reverse.dropWhile isPySpace).reverse).reverse.head? =
      some c := by
    rw [List.head?_reverse]
    exact h
  rw [List.reverse_reverse] at h2
  exact dropWhile_head_not isPySpace _ c h2

theorem collapseAux_append_nonws (a : Char) (ha : isPySpace a = false) :
    ∀ (s : List Char) (b : Bool),
      collapseAux b (s ++ [a]) = collapseAux b s ++ [a] := by
  intro s
  induction s with
  | nil =>
    intro b
    simp [collapseAux, ha]
  | cons c t ih =>
    intro b
    by_cases hc : isPySpace c = true
    · rcases b with _ | _ <;> simp [collapseAux, hc, ih]
    · simp [collapseAux, hc, ih]

theorem dropWhile_append_nonws (a : Char) (ha : isPySpace a = false)
    (s : List Char) :
    List.dropWhile isPySpace (s ++ [a]) =
      List.dropWhile isPySpace s ++ [a] := by
  induction s with
  | nil => simp [List.dropWhile_cons, ha]
  | cons c t ih =>
    rw [List.cons_append, List.dropWhile_cons, List.dropWhile_cons]
    by_cases hc : isPySpace c = true
    · rw [if_pos hc, if_pos hc, ih]
    · rw [if_neg hc, if_neg hc, List.cons_append]

theorem rtrim_append_nonws (a : Char) (ha : isPySpace a = false)
    (s : List Char) : rtrim (s ++ [a]) = s ++ [a] := by
  unfold rtrim
  rw [show (s ++ [a]).reverse = a :: s.reverse from by simp,
    List.dropWhile_cons, if_neg (by rw [ha]; exact Bool.false_ne_true)]
  simp

theorem ensureDot_idem (s : List Char) :
    ensureDot (ensureDot s) = ensureDot s := by
  by_cases h : s ≠ [] ∧ s.getLast? ≠ some '.' ∧ s.getLast? ≠ some '!' ∧
      s.getLast? ≠ some '?'
  · rw [show ensureDot s = s ++ ['.'] from by unfold ensureDot; rw [if_pos h]]
    unfold ensureDot
    rw [if_neg]
    intro hcond
    exact hcond.2.1 (List.getLast?_concat s)
  · unfold ensureDot
    rw [if_neg h, if_neg h]

theorem mem_ensureDot (s : List Char) (c : Char) (h : c ∈ ensureDot s) :
    c ∈ s ∨ c = '.' := by
  unfold ensureDot at h
  by_cases hc : s ≠ [] ∧ s.getLast? ≠ some '.' ∧ s.getLast? ≠ some '!' ∧
      s.getLast? ≠ some '?'
  · rw [if_pos hc] at h
    rcases List.mem_append.mp h with h | h
    · exact Or.inl h
    · exact Or.inr (by simpa using h)
  · rw [if_neg hc] at h
    exact Or.inl h

/-! ## Claim C5: stability of `postClean` outputs -/

theorem postClean_mem (z : List Char) :
    ∀ c ∈ postClean z, c = ' ' ∨ (allowedChar c = true ∧ isPySpace c = false) := by
  intro c hc
  unfold postClean at hc
  rcases mem_ensureDot _ _ hc with hc | hc
  · rcases mem_collapseAux false _ (mem_pyStrip _ _ hc) with h | ⟨h1, h2⟩
    · exact Or.inl h
    · obtain ⟨a, ha, hac⟩ := List.mem_map.mp h1
      have haa : allowedChar a = true := List.of_mem_filter ha
      by_cases han : a = '\n'
      · left
        rw [← hac, han]
        rfl
      · right
        rw [← hac, show nlToSpace a = a from by unfold nlToSpace; rw [if_neg han]]
        rw [show nlToSpace a = a from by
          unfold nlToSpace; rw [if_neg han]] at hac
        exact ⟨haa, hac ▸ h2⟩
  · right
    rw [hc]
    exact ⟨by decide, by decide⟩

theorem postClean_collapse (z : List Char) :
    wsCollapse (postClean z) = postClean z := by
  have hws : ∀ c ∈ pyStrip (wsCollapse ((z.filter allowedChar).map nlToSpace)),
      isPySpace c = true → c = ' ' :=
    fun c hc => collapse_ws_space false _ c (mem_pyStrip _ _ hc)
  have hch := chain'_pyStrip _
    (collapse_chain ((z.filter allowedChar).map nlToSpace) false)
  have hu := (collapse_noop _ hws hch).1
  unfold postClean ensureDot
  by_cases hcond : pyStrip (wsCollapse ((z.filter allowedChar).map nlToSpace)) ≠ [] ∧
      (pyStrip (wsCollapse ((z.filter allowedChar).map nlToSpace))).getLast? ≠ some '.' ∧
      (pyStrip (wsCollapse ((z.filter allowedChar).map nlToSpace))).getLast? ≠ some '!' ∧
      (pyStrip (wsCollapse ((z.filter allowedChar).map nlToSpace))).getLast? ≠ some '?'
  · rw [if_pos hcond]
    unfold wsCollapse
    rw [collapseAux_append_nonws '.' (by decide) _ false]
    unfold wsCollapse at hu
    rw [hu]
  · rw [if_neg hcond]
    exact hu

theorem postClean_strip (z : List Char) :
    pyStrip (postClean z) = postClean z := by
  have hu : pyStrip (pyStrip (wsCollapse ((z.filter allowedChar).map nlToSpace))) =
      pyStrip (wsCollapse ((z.filter allowedChar).map nlToSpace)) := by
    unfold pyStrip
    rw [show ltrim (rtrim (ltrim (wsCollapse ((z.filter allowedChar).map nlToSpace)))) =
        rtrim (ltrim (wsCollapse ((z.filter allowedChar).map nlToSpace))) from
      dropWhile_eq_self_of_head _ _ (pyStrip_head _)]
    exact rtrim_eq_self _ (pyStrip_getLast _)
  unfold postClean ensureDot
  by_cases hcond : pyStrip (wsCollapse ((z.filter allowedChar).map nlToSpace)) ≠ [] ∧
      (pyStrip (wsCollapse ((z.filter allowedChar).map nlToSpace))).getLast? ≠ some '.' ∧
      (pyStrip (wsCollapse ((z.filter allowedChar).map nlToSpace))).getLast? ≠ some '!' ∧
      (pyStrip (wsCollapse ((z.filter allowedChar).map nlToSpace))).getLast? ≠ some '?'
  · rw [if_pos hcond]
    have hlt : ltrim (pyStrip (wsCollapse ((z.filter allowedChar).map
        nlToSpace))) = pyStrip (wsCollapse ((z.filter allowedChar).map
        nlToSpace)) :=
      dropWhile_eq_self_of_head _ _ (pyStrip_head _)
    unfold pyStrip
    rw [show ltrim (rtrim (ltrim (wsCollapse ((z.filter allowedChar).map
          nlToSpace))) ++ ['.']) =
        ltrim (rtrim (ltrim (wsCollapse ((z.filter allowedChar).map
          nlToSpace)))) ++ ['.'] from
      dropWhile_append_nonws '.' (by decide) _]
    rw [show ltrim (rtrim (ltrim (wsCollapse ((z.filter allowedChar).map
          nlToSpace)))) =
        rtrim (ltrim (wsCollapse ((z.filter allowedChar).map nlToSpace)))
      from hlt]
    exact rtrim_append_nonws '.' (by decide) _
  · rw [if_neg hcond]
    exact hu

theorem postClean_dot (z : List Char) :
    ensureDot (postClean z) = postClean z := by
  unfold postClean
  exact ensureDot_idem _

theorem map_nlToSpace_eq_self (s : List Char) (h : ∀ c ∈ s, c ≠ '\n') :
    s.map nlToSpace = s := by
  induction s with
  | nil => rfl
  | cons c t ih =>
    rw [List.map_cons,
      show nlToSpace c = c from by
        unfold nlToSpace
        rw [if_neg (h c (List.mem_cons_self c t))],
      ih fun d hd => h d (List.mem_cons_of_mem c hd)]

theorem postClean_postClean (z : List Char) :
    postClean (postClean z) = postClean z := by
  have hmem := postClean_mem z
  have hfil : (postClean z).filter allowedChar = postClean z := by
    apply List.filter_eq_self.mpr
    intro c hc
    rcases hmem c hc with h | ⟨h1, _⟩
    · rw [h]; decide
    · exact h1
  have hmap : (postClean z).map nlToSpace = postClean z := by
    apply map_nlToSpace_eq_self
    intro c hc hcn
    rcases hmem c hc with h | ⟨_, h2⟩
    · rw [hcn] at h
      exact absurd h (by decide)
    · rw [hcn] at h2
      exact absurd h2 (by decide)
  conv_lhs => rw [postClean]
  rw [hfil, hmap, postClean_collapse, postClean_strip, postClean_dot]

/-! ## Claim C5: the regex scanners fix trigger-free strings -/

theorem boldSubAux_eq_self :
    ∀ (fuel : Nat) (s : List Char), '*' ∉ s → boldSubAux fuel s = s := by
  intro fuel
  induction fuel with
  | zero =>
    intro s _
    rfl
  | succ n ih =>
    intro s hs
    match s with
    | [] => rfl
    | c :: t =>
      have hc : ¬(c = '*' ∧ t.head? = some '*') :=
        fun hcc => hs (hcc.1 ▸ List.mem_cons_self c t)
      simp only [boldSubAux]
      rw [if_neg hc, ih t fun hm => hs (List.mem_cons_of_mem c hm)]

theorem boldSub_eq_self (s : List Char) (h : '*' ∉ s) : boldSub s = s :=
  boldSubAux_eq_self _ s h

theorem delimSubAux_eq_self (d : Char) :
    ∀ (fuel : Nat) (s : List Char), d ∉ s → delimSubAux d fuel s = s := by
  intro fuel
  induction fuel with
  | zero =>
    intro s _
    rfl
  | succ n ih =>
    intro s hs
    match s with
    | [] => rfl
    | c :: t =>
      have hc : ¬(c = d) := fun hcc => hs (hcc ▸ List.mem_cons_self c t)
      simp only [delimSubAux]
      rw [if_neg hc, ih t fun hm => hs (List.mem_cons_of_mem c hm)]

theorem italicSub_eq_self (s : List Char) (h : '*' ∉ s) : italicSub s = s :=
  delimSubAux_eq_self '*' _ s h

theorem codeSub_eq_self (s : List Char) (h : '`' ∉ s) : codeSub s = s :=
  delimSubAux_eq_self '`' _ s h

theorem headerSubAux_eq_self :
    ∀ (fuel : Nat) (s : List Char), '#' ∉ s → headerSubAux fuel s = s := by
  intro fuel
  induction fuel with
  | zero =>
    intro s _
    rfl
  | succ n ih =>
    intro s hs
    match s with
    | [] => rfl
    | c :: t =>
      have hc : ¬(c = '#' ∧ t.head? = some '#') :=
        fun hcc => hs (hcc.1 ▸ List.mem_cons_self c t)
      simp only [headerSubAux]
      rw [if_neg hc, ih t fun hm => hs (List.mem_cons_of_mem c hm)]

theorem headerSub_eq_self (s : List Char) (h : '#' ∉ s) : headerSub s = s :=
  headerSubAux_eq_self _ s h

theorem linkSubAux_eq_self :
    ∀ (fuel : Nat) (s : List Char), '[' ∉ s → linkSubAux fuel s = s := by
  intro fuel
  induction fuel with
  | zero =>
    intro s _
    rfl
  | succ n ih =>
    intro s hs
    match s with
    | [] => rfl
    | c :: t =>
      have hc : ¬(c = '[') := fun hcc => hs (hcc ▸ List.mem_cons_self c t)
      simp only [linkSubAux]
      rw [if_neg hc, ih t fun hm => hs (List.mem_cons_of_mem c hm)]

theorem linkSub_eq_self (s : List Char) (h : '[' ∉ s) : linkSub s = s :=
  linkSubAux_eq_self _ s h

theorem urlMatch_none (u : List Char) (h : '/' ∉ u) : urlMatch u = none := by
  have h4 : ¬(u.take 4 = ['s', ':', '/', '/']) := by
    intro hc
    exact h (List.take_subset 4 u (by rw [hc]; decide))
  have h3 : ¬(u.take 3 = [':', '/', '/']) := by
    intro hc
    exact h (List.take_subset 3 u (by rw [hc]; decide))
  unfold urlMatch
  rw [if_neg h4, if_neg h3]

theorem urlSubAux_eq_self :
    ∀ (fuel : Nat) (s : List Char), '/' ∉ s → urlSubAux fuel s = s := by
  intro fuel
  induction fuel with
  | zero =>
    intro s _
    rfl
  | succ n ih =>
    intro s hs
    match s with
    | [] => rfl
    | c :: t =>
      have ht : '/' ∉ t := fun hm => hs (List.mem_cons_of_mem c hm)
      simp only [urlSubAux]
      by_cases hcond : c = 'h' ∧ t.take 3 = ['t', 't', 'p']
      · rw [if_pos hcond,
          urlMatch_none _ fun hm => ht (List.drop_subset 3 t hm)]
        exact congrArg (List.cons c) (ih t ht)
      · rw [if_neg hcond]
        rw [ih t ht]

theorem urlSub_eq_self (s : List Char) (h : '/' ∉ s) : urlSub s = s :=
  urlSubAux_eq_self _ s h

/-! ## Claim C5: the idempotency claim -/

theorem clean_nonempty (s : List Char) (hs : s ≠ []) :
    clean_text_for_speech s =
      postClean (drSub none (urlSub (linkSub (headerSub (codeSub (italicSub
        (boldSub s))))))) := by
  unfold clean_text_for_speech
  rw [if_neg hs]

/-- C5, counterexample: `normalize` is not idempotent.  `normalize "Dr"`
appends the terminal period and yields `"Dr."`; normalizing again fires the
`Dr.` expansion and yields `"Doctor."`. -/
theorem c5_counterexample :
    clean_text_for_speech "Dr".toList = "Dr.".toList ∧
      clean_text_for_speech (clean_text_for_speech "Dr".toList) =
        "Doctor.".toList ∧
      clean_text_for_speech (clean_text_for_speech "Dr".toList) ≠
        clean_text_for_speech "Dr".toList := by
  refine ⟨?_, ?_, ?_⟩ <;> decide

/-- C5, amended: `normalize` is idempotent on every input whose normalized
form contains no word-boundary occurrence of `Dr.` (that is, on which the
`Dr.`-expansion pass is a no-op); the lexical-expansion rule is the only
source of non-idempotency, as inputs such as `"Dr"` show. -/
theorem c5_idem_no_dr (x : List Char)
    (hdr : drSub none (clean_text_for_speech x) = clean_text_for_speech x) :
    clean_text_for_speech (clean_text_for_speech x) =
      clean_text_for_speech x := by
  by_cases hx : x = []
  · rw [hx]
    rfl
  · obtain ⟨z, hcx⟩ : ∃ z, clean_text_for_speech x = postClean z :=
      ⟨_, clean_nonempty x hx⟩
    by_cases hyn : clean_text_for_speech x = []
    · rw [hyn]
      rfl
    · have hmem : ∀ c ∈ clean_text_for_speech x,
          c = ' ' ∨ (allowedChar c = true ∧ isPySpace c = false) :=
        hcx ▸ postClean_mem z
      have habsent : ∀ d : Char, allowedChar d = false → d ≠ ' ' →
          d ∉ clean_text_for_speech x := by
        intro d hd hdsp hm
        rcases hmem d hm with h | ⟨h1, _⟩
        · exact hdsp h
        · rw [hd] at h1
          exact Bool.false_ne_true h1
      rw [clean_nonempty _ hyn,
        boldSub_eq_self _ (habsent '*' (by decide) (by decide)),
        italicSub_eq_self _ (habsent '*' (by decide) (by decide)),
        codeSub_eq_self _ (habsent '`' (by decide) (by decide)),
        headerSub_eq_self _ (habsent '#' (by decide) (by decide)),
        linkSub_eq_self _ (habsent '[' (by decide) (by decide)),
        urlSub_eq_self _ (habsent '/' (by decide) (by decide)),
        hdr, hcx]
      exact postClean_postClean z

/-- C5, witness for `c5_idem_no_dr` on an input free of the `Dr.` pattern. -/
theorem c5_idem_no_dr_witness :
    drSub none (clean_text_for_speech "Hello **world**".toList) =
      clean_text_for_speech "Hello **world**".toList ∧
    clean_text_for_speech (clean_text_for_speech "Hello **world**".toList) =
      clean_text_for_speech "Hello **world**".toList :=
  ⟨by decide, c5_idem_no_dr "Hello **world**".toList (by decide)⟩
